import Mathlib

/-!
Verification of the keyboard-hook engine (nktkas/keyboard-hook).

The development shallowly embeds the engine's TypeScript sources:

* `KeyboardHook.ts` — direct (non-worker) variant: hook callback guarded by
  `nCode >= 0`, event-name lookup in a four-entry map, four-field event detail.
* `keyboard_hook_with_worker.ts` — worker variant: facade `start`/`stop`
  spawning/terminating a worker; inlined hook class with callback guarded by
  `nCode === 0`, five-field decoder `#parseKeyEvent`, switch classifier
  `#getEventName` with a catch-all default, inner `stop` that unhooks.
* `KeyboardHook_worker.ts` — worker variant whose callback pre-decodes the
  flags bitfield into named booleans.
* `worker.ts` / the unnamed worker revision — worker-side event forwarding via
  `postMessage`, and a `start` whose install-failure path cleans up.

Raw hook records are modelled as byte memories (`Nat → Nat`); pointer reads
(`Deno.UnsafePointerView.getUint32` / `getBigUint64`) assemble bytes
little-endian, as on the Windows targets the code runs on.  Callbacks are pure
functions returning the ordered list of observable actions they perform
(event dispatches, the `CallNextHookEx` forward) together with their i32
result; the OS's next-hook procedure is a parameter.  Lifecycle code is
modelled as explicit state passing over the facade's `worker` field, again
returning action traces.
-/

/-- A raw memory block: the byte stored at each offset. -/
def Mem : Type := Nat → Nat

/-- `Deno.UnsafePointerView.getUint32(off)`: the 32-bit unsigned value whose
little-endian bytes sit at offsets `off .. off+3`. -/
def getUint32 (view : Mem) (off : Nat) : Nat :=
  view off + 256 * view (off + 1) + 65536 * view (off + 2) + 16777216 * view (off + 3)

/-- `Deno.UnsafePointerView.getBigUint64(off)`: the 64-bit unsigned value whose
little-endian bytes sit at offsets `off .. off+7`. -/
def getBigUint64 (view : Mem) (off : Nat) : Nat :=
  view off + 256 * view (off + 1) + 65536 * view (off + 2) + 16777216 * view (off + 3) +
    4294967296 * view (off + 4) + 1099511627776 * view (off + 5) +
    281474976710656 * view (off + 6) + 72057594037927936 * view (off + 7)

/-- Specification-side field reader: the native(little)-endian unsigned field
of `width` bytes starting at byte offset `off`.  Stated independently of the
source's `getUint32`/`getBigUint64` so that the decoder can be checked
against the documented record layout. -/
def readField (view : Mem) (off : Nat) : Nat → Nat
  | 0 => 0
  | width + 1 => view off + 256 * readField view (off + 1) width

/-- Decoded key event of the worker variant's `#parseKeyEvent`
(`keyboard_hook_with_worker.ts`): all five KBDLLHOOKSTRUCT fields plus the
message identifier. -/
structure KeyEvent where
  vkCode : Nat
  scanCode : Nat
  flags : Nat
  time : Nat
  extraInfo : Nat
  message : Nat
deriving DecidableEq

/-- Event detail dispatched by the `KeyboardHook.ts` callback: four fields,
no `extraInfo`. -/
structure KeyEventBasic where
  vkCode : Nat
  scanCode : Nat
  flags : Nat
  time : Nat
deriving DecidableEq

/-- Pre-decoded flags object of the `KeyboardHook_worker.ts` variant. -/
structure KeyFlags where
  extended : Bool
  lowerIlInjected : Bool
  injected : Bool
  altDown : Bool
  up : Bool
deriving DecidableEq

/-- Event detail dispatched by the `KeyboardHook_worker.ts` callback:
raw flags replaced by the decoded `KeyFlags` object. -/
structure KeyEventFlags where
  vkCode : Nat
  scanCode : Nat
  flags : KeyFlags
  time : Nat
deriving DecidableEq

/-- `KeyboardHook_worker.ts` flags decoding: each named boolean is the raw
32-bit flags value masked with a fixed constant, compared against zero. -/
def decodeFlags (flags : Nat) : KeyFlags where
  extended := flags &&& 0x01 != 0
  lowerIlInjected := flags &&& 0x02 != 0
  injected := flags &&& 0x10 != 0
  altDown := flags &&& 0x20 != 0
  up := flags &&& 0x80 != 0

/-- Consumer-facing event names: the four keyed entries of
`KeyboardHookEventMap` plus the worker variant's catch-all `key`. -/
inductive EventName where
  | keydown
  | keyup
  | syskeydown
  | syskeyup
  | key
deriving DecidableEq

def WM_KEYDOWN : Nat := 0x0100

def WM_KEYUP : Nat := 0x0101

def WM_SYSKEYDOWN : Nat := 0x0104

def WM_SYSKEYUP : Nat := 0x0105

/-- `KeyboardHook.eventNameMap` (`KeyboardHook.ts`): the four-entry map from
message identifier to event name, looked up with `Map.get`. -/
def eventNameMap : List (Nat × EventName) :=
  [(WM_KEYDOWN, EventName.keydown), (WM_KEYUP, EventName.keyup),
   (WM_SYSKEYDOWN, EventName.syskeydown), (WM_SYSKEYUP, EventName.syskeyup)]

/-- `KeyboardHook.#getEventName` (`keyboard_hook_with_worker.ts`): switch on
the message identifier, defaulting to the catch-all name `key`. -/
def getEventName (message : Nat) : EventName :=
  if message = WM_KEYDOWN then EventName.keydown
  else if message = WM_KEYUP then EventName.keyup
  else if message = WM_SYSKEYDOWN then EventName.syskeydown
  else if message = WM_SYSKEYUP then EventName.syskeyup
  else EventName.key

/-- `KeyboardHook.#parseKeyEvent` (`keyboard_hook_with_worker.ts`): reads the
five KBDLLHOOKSTRUCT fields from the record pointed to by `lParam` and keeps
the message identifier `wParam`. -/
def parseKeyEvent (wParam : Nat) (lParam : Mem) : KeyEvent where
  vkCode := getUint32 lParam 0
  scanCode := getUint32 lParam 4
  flags := getUint32 lParam 8
  time := getUint32 lParam 12
  extraInfo := getBigUint64 lParam 16
  message := wParam

/-- Observable actions a hook callback performs, in program order. -/
inductive HookAct where
  | dispatch (name : EventName) (ev : KeyEvent)
  | dispatchBasic (name : EventName) (ev : KeyEventBasic)
  | dispatchFlags (name : EventName) (ev : KeyEventFlags)
  | callNext (nCode : Int) (wParam : Nat) (lParamNull : Bool)
deriving DecidableEq

/-- The OS's next hook procedure (`CallNextHookEx` continuation). -/
def NextHook : Type := Int → Nat → Option Mem → Int

/-- The `KeyboardHook.ts` hook callback (lines 241–265): if `nCode >= 0` and
`lParam` is non-null, look the message up in `eventNameMap` and, when found,
dispatch the four-field event detail; always forward to `CallNextHookEx` and
return its result. -/
def callbackKH (next : NextHook) (nCode : Int) (wParam : Nat) (lParam : Option Mem) :
    List HookAct × Int :=
  let dispatched : List HookAct :=
    match lParam with
    | none => []
    | some view =>
      if 0 ≤ nCode then
        match List.lookup wParam eventNameMap with
        | some eventName =>
          [HookAct.dispatchBasic eventName
            { vkCode := getUint32 view 0, scanCode := getUint32 view 4,
              flags := getUint32 view 8, time := getUint32 view 12 }]
        | none => []
      else []
  (dispatched ++ [HookAct.callNext nCode wParam lParam.isNone], next nCode wParam lParam)

/-- The worker-variant hook callback (`keyboard_hook_with_worker.ts`,
lines 72–79): if `nCode === 0` and `lParam` is non-null, parse the record and
dispatch it under `#getEventName` of its message; always forward to
`CallNextHookEx` and return its result. -/
def callbackWorker (next : NextHook) (nCode : Int) (wParam : Nat) (lParam : Option Mem) :
    List HookAct × Int :=
  let dispatched : List HookAct :=
    match lParam with
    | none => []
    | some view =>
      if nCode = 0 then
        let keyEvent := parseKeyEvent wParam view
        let eventName := getEventName keyEvent.message
        [HookAct.dispatch eventName keyEvent]
      else []
  (dispatched ++ [HookAct.callNext nCode wParam lParam.isNone], next nCode wParam lParam)

/-- The `KeyboardHook_worker.ts` hook callback (lines 36–61): like the
`KeyboardHook.ts` callback but the dispatched detail carries the flags
pre-decoded through `decodeFlags`. -/
def callbackFlags (next : NextHook) (nCode : Int) (wParam : Nat) (lParam : Option Mem) :
    List HookAct × Int :=
  let dispatched : List HookAct :=
    match lParam with
    | none => []
    | some view =>
      if 0 ≤ nCode then
        match List.lookup wParam eventNameMap with
        | some eventName =>
          let flags := getUint32 view 8
          [HookAct.dispatchFlags eventName
            { vkCode := getUint32 view 0, scanCode := getUint32 view 4,
              flags := decodeFlags flags, time := getUint32 view 12 }]
        | none => []
      else []
  (dispatched ++ [HookAct.callNext nCode wParam lParam.isNone], next nCode wParam lParam)

/-- Number of `CallNextHookEx` forwards in a callback's action trace. -/
def countCallNext : List HookAct → Nat
  | [] => 0
  | HookAct.callNext _ _ _ :: rest => countCallNext rest + 1
  | _ :: rest => countCallNext rest

/-- Whether a callback's action trace dispatches at least one event. -/
def hasDispatch : List HookAct → Bool
  | [] => false
  | HookAct.callNext _ _ _ :: rest => hasDispatch rest
  | _ :: _ => true

/-- The event names dispatched in an action trace, in order. -/
def dispatchNames : List HookAct → List EventName
  | [] => []
  | HookAct.dispatch name _ :: rest => name :: dispatchNames rest
  | HookAct.dispatchBasic name _ :: rest => name :: dispatchNames rest
  | HookAct.dispatchFlags name _ :: rest => name :: dispatchNames rest
  | HookAct.callNext _ _ _ :: rest => dispatchNames rest

/-- A constant stand-in next-hook procedure, used at concrete inputs. -/
def cnext : NextHook := fun _ _ _ => 0

/-- The all-zero raw record, used at concrete inputs. -/
def zmem : Mem := fun _ => 0

/-- Message posted from the worker to the facade: `{ type, detail }` as in the
worker-side `self.postMessage` calls. -/
structure WorkerMsg where
  type : EventName
  detail : KeyEvent
deriving DecidableEq

/-- Worker-side event forwarding (the five `addEventListener` registrations of
the inlined worker body / `worker.ts`): each dispatched event becomes one
posted `{ type, detail }` message, in dispatch order. -/
def workerRelay : List HookAct → List WorkerMsg
  | [] => []
  | HookAct.dispatch name ev :: rest => { type := name, detail := ev } :: workerRelay rest
  | HookAct.dispatchBasic _ _ :: rest => workerRelay rest
  | HookAct.dispatchFlags _ _ :: rest => workerRelay rest
  | HookAct.callNext _ _ _ :: rest => workerRelay rest

/-- Facade-side `onmessage` handler (`keyboard_hook_with_worker.ts`,
lines 170–173): each worker message is re-dispatched as a `CustomEvent` of the
same type and detail, so listeners observe the `(type, detail)` pairs in
message order. -/
def relayToListeners : List WorkerMsg → List (EventName × KeyEvent)
  | [] => []
  | msg :: rest => (msg.type, msg.detail) :: relayToListeners rest

/-- A run of the worker-variant hook: the OS invokes the callback once per key
event, with processable code `0` and a valid record pointer, concatenating the
callbacks' action traces in arrival order. -/
def runHook (next : NextHook) : List (Nat × Mem) → List HookAct
  | [] => []
  | (wParam, record) :: rest =>
    (callbackWorker next 0 wParam (some record)).1 ++ runHook next rest

/-- What consumer-side listeners observe for a list of key events arriving at
the worker-variant hook callback: the composition of callback dispatch, worker
`postMessage` forwarding, and the facade `onmessage` re-dispatch. -/
def consumerView (next : NextHook) (arrivals : List (Nat × Mem)) :
    List (EventName × KeyEvent) :=
  relayToListeners (workerRelay (runHook next arrivals))

/-- Observable lifecycle actions of the facade, the worker and the native
library calls, in program order. -/
inductive Act where
  | spawnWorker
  | terminateWorker
  | setHook
  | getMessage
  | postQuit
  | unhook
  | callbackClose
  | libClose
  | selfClose
  | throwInstallError
deriving DecidableEq

/-- Facade state (`keyboard_hook_with_worker.ts`): the `worker` field is
`undefined` or a live worker; `spawned` counts workers ever created so that
distinct spawns are distinguishable. -/
structure Facade where
  worker : Option Nat
  spawned : Nat
deriving DecidableEq

/-- A freshly constructed facade: no worker yet. -/
def initFacade : Facade := { worker := none, spawned := 0 }

/-- Facade `start()` (`keyboard_hook_with_worker.ts`, lines 9–177): if a
worker already exists, return immediately; otherwise spawn a fresh worker
(which installs the hook and pumps messages) and wire `onmessage`. -/
def start (s : Facade) : Facade × List Act :=
  match s.worker with
  | some _ => (s, [])
  | none => ({ worker := some s.spawned, spawned := s.spawned + 1 }, [Act.spawnWorker])

/-- Facade `stop()` (`keyboard_hook_with_worker.ts`, lines 180–186): if a
worker exists, terminate it and clear the field; otherwise do nothing. -/
def stop (s : Facade) : Facade × List Act :=
  match s.worker with
  | some _ => ({ s with worker := none }, [Act.terminateWorker])
  | none => (s, [])

/-- Public lifecycle operations of the facade. -/
inductive FacadeOp where
  | startOp
  | stopOp
deriving DecidableEq

/-- Run a sequence of public lifecycle calls against a facade state. -/
def runOps (s : Facade) : List FacadeOp → Facade
  | [] => s
  | FacadeOp.startOp :: ops => runOps (start s).1 ops
  | FacadeOp.stopOp :: ops => runOps (stop s).1 ops

/-- Number of native hooks installed on behalf of a facade state: one per live
worker (each worker's inlined hook installs a single hook, guarded by its
`#running` flag). -/
def installedHooks (s : Facade) : Nat :=
  match s.worker with
  | some _ => 1
  | none => 0

/-- What the facade's listeners observe for a list of messages arriving from
the worker: with a live worker each message is re-dispatched; after
`worker.terminate()` there is no worker and no `onmessage` target, so nothing
is delivered. -/
def facadeObserve (s : Facade) (msgs : List WorkerMsg) : List (EventName × KeyEvent) :=
  match s.worker with
  | some _ => relayToListeners msgs
  | none => []

/-- State of the inlined worker-side hook object
(`keyboard_hook_with_worker.ts`, lines 55–139). -/
structure InnerHook where
  running : Bool
  hookHandle : Bool
  callbackOpen : Bool
deriving DecidableEq

/-- The inlined hook's `stop()` (`keyboard_hook_with_worker.ts`,
lines 94–111): a no-op unless running; otherwise clear `#running`, post the
quit message, unhook if a handle exists, close the callback if open, and close
the library. -/
def innerStop (h : InnerHook) : InnerHook × List Act :=
  if h.running then
    ({ running := false, hookHandle := false, callbackOpen := false },
      [Act.postQuit] ++ (if h.hookHandle then [Act.unhook] else [])
        ++ (if h.callbackOpen then [Act.callbackClose] else []) ++ [Act.libClose])
  else (h, [])

/-- The unnamed worker revision's `start()` (`src/unnamed/part_000`,
lines 59–90), as the trace of native calls it performs given whether
`SetWindowsHookExW` succeeds: on failure it closes the callback, the library
and the worker scope, but control then falls through to the unconditional
`GetMessageW` call. -/
def workerStart (installOk : Bool) : List Act :=
  [Act.setHook] ++
    (if installOk then [] else [Act.callbackClose, Act.libClose, Act.selfClose]) ++
    [Act.getMessage]

/-- The `KeyboardHook.ts` constructor (lines 236–281), as the trace of native
calls it performs given whether `SetWindowsHookExW` succeeds: on failure it
runs `close()` (post quit, unhook, close callback, close library) and throws,
never reaching `GetMessageW`; on success it stores the handle and calls
`GetMessageW`. -/
def constructorRun (installOk : Bool) : List Act :=
  if installOk then [Act.setHook, Act.getMessage]
  else [Act.setHook, Act.postQuit, Act.unhook, Act.callbackClose, Act.libClose,
    Act.throwInstallError]

/-- A sample decoded key event (vkCode `0x41`, message `WM_KEYDOWN`), used at
concrete inputs. -/
def ev0 : KeyEvent :=
  { vkCode := 0x41, scanCode := 0x1E, flags := 0, time := 0, extraInfo := 0,
    message := 0x0100 }

theorem workerRelay_append (a b : List HookAct) :
    workerRelay (a ++ b) = workerRelay a ++ workerRelay b := by
  induction a with
  | nil => rfl
  | cons x rest ih => cases x <;> simp [workerRelay, ih]

theorem callbackWorker_trace (next : NextHook) (wParam : Nat) (record : Mem) :
    (callbackWorker next 0 wParam (some record)).1 =
      [HookAct.dispatch (getEventName wParam) (parseKeyEvent wParam record),
       HookAct.callNext 0 wParam false] := by
  simp [callbackWorker, parseKeyEvent]

theorem consumerView_eq (next : NextHook) (arrivals : List (Nat × Mem)) :
    consumerView next arrivals =
      arrivals.map (fun p => (getEventName p.1, parseKeyEvent p.1 p.2)) := by
  induction arrivals with
  | nil => rfl
  | cons p rest ih =>
    obtain ⟨w, m⟩ := p
    simp only [consumerView, runHook, workerRelay_append, callbackWorker_trace] at ih ⊢
    simp [workerRelay, relayToListeners, ih]

theorem and_mask_eq_testBit (n i : Nat) : (n &&& 2 ^ i != 0) = n.testBit i := by
  rw [Nat.and_two_pow]
  cases h : n.testBit i <;> simp [h]

/-- Claim C1: for every invocation of a hook callback, with any hook-chain
code, message identifier and record pointer (including ones for which nothing
is decoded or published), the callback invokes the next hook in the OS chain
exactly once and returns exactly the value the next hook returned — in both
the `KeyboardHook.ts` callback and the worker-variant callback. -/
theorem C1_forward_always (next : NextHook) (nCode : Int) (wParam : Nat)
    (lParam : Option Mem) :
    countCallNext (callbackKH next nCode wParam lParam).1 = 1 ∧
    (callbackKH next nCode wParam lParam).2 = next nCode wParam lParam ∧
    countCallNext (callbackWorker next nCode wParam lParam).1 = 1 ∧
    (callbackWorker next nCode wParam lParam).2 = next nCode wParam lParam := by
  refine ⟨?_, rfl, ?_, rfl⟩
  · cases lParam with
    | none => simp [callbackKH, countCallNext]
    | some view =>
      by_cases h : 0 ≤ nCode
      · cases hl : List.lookup wParam eventNameMap <;>
          simp [callbackKH, h, hl, countCallNext]
      · simp [callbackKH, h, countCallNext]
  · cases lParam with
    | none => simp [callbackWorker, countCallNext]
    | some view =>
      by_cases h : nCode = 0 <;> simp [callbackWorker, h, countCallNext]

/-- Claim C2, counterexample: the `KeyboardHook.ts` callback publishes for
hook-chain code `1` with a recognized message and a non-null record, so
publication is not restricted to the single sentinel code `0`. -/
theorem C2_counterexample :
    ¬ ∀ (next : NextHook) (nCode : Int) (wParam : Nat) (lParam : Option Mem),
        hasDispatch (callbackKH next nCode wParam lParam).1 = true ↔
          (nCode = 0 ∧ lParam.isSome = true) := by
  intro h
  have h1 := (h cnext 1 WM_KEYDOWN (some zmem)).mp (by decide)
  exact absurd h1.1 (by decide)

/-- Claim C2, amended: the worker-variant callback decodes and publishes
exactly when the hook-chain code equals the sentinel `0` and the record
pointer is non-null; the `KeyboardHook.ts` callback publishes exactly when the
hook-chain code is non-negative, the pointer is non-null and the message
identifier is in its event-name map. -/
theorem C2_publication_condition (next : NextHook) (nCode : Int) (wParam : Nat)
    (lParam : Option Mem) :
    (hasDispatch (callbackWorker next nCode wParam lParam).1 = true ↔
      (nCode = 0 ∧ lParam.isSome = true)) ∧
    (hasDispatch (callbackKH next nCode wParam lParam).1 = true ↔
      (0 ≤ nCode ∧ lParam.isSome = true ∧
        (List.lookup wParam eventNameMap).isSome = true)) := by
  constructor
  · cases lParam with
    | none => simp [callbackWorker, hasDispatch]
    | some view =>
      by_cases h : nCode = 0 <;> simp [callbackWorker, h, hasDispatch]
  · cases lParam with
    | none => simp [callbackKH, hasDispatch]
    | some view =>
      by_cases h : 0 ≤ nCode
      · cases hl : List.lookup wParam eventNameMap <;>
          simp [callbackKH, h, hl, hasDispatch]
      · simp [callbackKH, h, hasDispatch]

/-- Claim C3: for every raw record, the decoder `#parseKeyEvent` produces a
`KeyEvent` whose `vkCode`, `scanCode`, `flags` and `time` are the 32-bit
fields at byte offsets 0, 4, 8 and 12 and whose `extraInfo` is the 64-bit
field at byte offset 16, all native(little)-endian; the produced event carries
all five fields. -/
theorem C3_decoder_layout (wParam : Nat) (record : Mem) :
    (parseKeyEvent wParam record).vkCode = readField record 0 4 ∧
    (parseKeyEvent wParam record).scanCode = readField record 4 4 ∧
    (parseKeyEvent wParam record).flags = readField record 8 4 ∧
    (parseKeyEvent wParam record).time = readField record 12 4 ∧
    (parseKeyEvent wParam record).extraInfo = readField record 16 8 := by
  refine ⟨?_, ?_, ?_, ?_, ?_⟩ <;>
    simp [parseKeyEvent, getUint32, getBigUint64, readField, Finset.sum_range_succ] <;>
    ring

/-- Claim C4, counterexample: on the unrecognized message identifier `0x0200`
the two classifiers disagree — the `KeyboardHook.ts` callback drops the event
(its map lookup fails and nothing is dispatched) while the worker-variant
callback forwards it under the catch-all name `key` — so there is no single
engine-wide policy for unrecognized identifiers. -/
theorem C4_counterexample :
    List.lookup 0x0200 eventNameMap = none ∧
    hasDispatch (callbackKH cnext 0 0x0200 (some zmem)).1 = false ∧
    dispatchNames (callbackWorker cnext 0 0x0200 (some zmem)).1 = [EventName.key] := by
  decide

/-- Claim C4, amended: both classifiers map `0x0100`, `0x0101`, `0x0104` and
`0x0105` to keydown, keyup, syskeydown and syskeyup respectively; for every
unrecognized identifier the `KeyboardHook.ts` map yields nothing (the event is
dropped) while the worker-variant switch yields the catch-all `key` (the event
is forwarded) — two different per-variant policies, not one engine-wide one. -/
theorem C4_classification (message : Nat) :
    List.lookup WM_KEYDOWN eventNameMap = some EventName.keydown ∧
    List.lookup WM_KEYUP eventNameMap = some EventName.keyup ∧
    List.lookup WM_SYSKEYDOWN eventNameMap = some EventName.syskeydown ∧
    List.lookup WM_SYSKEYUP eventNameMap = some EventName.syskeyup ∧
    getEventName WM_KEYDOWN = EventName.keydown ∧
    getEventName WM_KEYUP = EventName.keyup ∧
    getEventName WM_SYSKEYDOWN = EventName.syskeydown ∧
    getEventName WM_SYSKEYUP = EventName.syskeyup ∧
    (message ∉ [WM_KEYDOWN, WM_KEYUP, WM_SYSKEYDOWN, WM_SYSKEYUP] →
      List.lookup message eventNameMap = none ∧ getEventName message = EventName.key) := by
  refine ⟨by decide, by decide, by decide, by decide, by decide, by decide, by decide,
    by decide, ?_⟩
  intro h
  simp only [List.mem_cons, List.not_mem_nil, or_false, not_or] at h
  obtain ⟨h1, h2, h3, h4⟩ := h
  constructor
  · have e1 : (message == WM_KEYDOWN) = false := beq_eq_false_iff_ne.mpr h1
    have e2 : (message == WM_KEYUP) = false := beq_eq_false_iff_ne.mpr h2
    have e3 : (message == WM_SYSKEYDOWN) = false := beq_eq_false_iff_ne.mpr h3
    have e4 : (message == WM_SYSKEYUP) = false := beq_eq_false_iff_ne.mpr h4
    simp [eventNameMap, List.lookup, e1, e2, e3, e4]
  · simp [getEventName, h1, h2, h3, h4]

/-- Claim C4, witness for the amended classification at the unrecognized
identifier `0x0200`. -/
theorem C4_witness :
    (0x0200 : Nat) ∉ [WM_KEYDOWN, WM_KEYUP, WM_SYSKEYDOWN, WM_SYSKEYUP] ∧
    List.lookup 0x0200 eventNameMap = none ∧ getEventName 0x0200 = EventName.key := by
  refine ⟨by decide, ?_⟩
  exact (C4_classification 0x0200).2.2.2.2.2.2.2.2 (by decide)

/-- Claim C5: for every sequence of N key events arriving at the worker-variant
hook callback while the engine is running, consumer-side listeners observe
exactly N decoded events, in arrival order, each carrying the `vkCode` of its
originating raw record (the 32-bit field at offset 0); nothing is coalesced,
dropped, reordered or duplicated. -/
theorem C5_exact_delivery (next : NextHook) (arrivals : List (Nat × Mem)) :
    (consumerView next arrivals).length = arrivals.length ∧
    (∀ i : Nat, (consumerView next arrivals).get? i =
      (arrivals.get? i).map (fun p => (getEventName p.1, parseKeyEvent p.1 p.2))) ∧
    (∀ i : Nat, ((consumerView next arrivals).get? i).map (fun e => e.2.vkCode) =
      (arrivals.get? i).map (fun p => getUint32 p.2 0)) := by
  refine ⟨?_, ?_, ?_⟩
  · rw [consumerView_eq]
    exact List.length_map _ _
  · intro i
    rw [consumerView_eq, List.get?_map]
  · intro i
    rw [consumerView_eq, List.get?_map]
    cases arrivals.get? i <;> simp [parseKeyEvent]

/-- Claim C6: facade `start()` while a worker is live is a no-op (same state,
no actions, hence no second hook installed); `stop()` with no live worker is a
no-op; and along every sequence of lifecycle calls from a fresh facade at most
one native hook is installed at any time. -/
theorem C6_idempotent_lifecycle (s : Facade) :
    (s.worker.isSome = true → start s = (s, [])) ∧
    (s.worker = none → stop s = (s, [])) ∧
    ∀ ops : List FacadeOp, installedHooks (runOps initFacade ops) ≤ 1 := by
  refine ⟨?_, ?_, ?_⟩
  · intro h
    match hw : s.worker with
    | some w => simp [start, hw]
    | none => rw [hw] at h; cases h
  · intro h
    simp [stop, h]
  · intro ops
    have h : ∀ t : Facade, installedHooks t ≤ 1 := by
      intro t
      rcases t with ⟨w, n⟩
      cases w <;> simp [installedHooks]
    exact h _

/-- Claim C6, witness: `start` on a facade with a live worker and `stop` on a
fresh facade are both no-ops. -/
theorem C6_witness :
    (Facade.mk (some 0) 1).worker.isSome = true ∧
    start (Facade.mk (some 0) 1) = (Facade.mk (some 0) 1, []) ∧
    (Facade.mk none 0).worker = none ∧
    stop (Facade.mk none 0) = (Facade.mk none 0, []) := by
  exact ⟨by decide, (C6_idempotent_lifecycle (Facade.mk (some 0) 1)).1 (by decide),
    by decide, (C6_idempotent_lifecycle (Facade.mk none 0)).2.1 (by decide)⟩

/-- Claim C7, counterexample: on the same facade instance, `start` after
`stop` spawns a fresh worker, returns the instance to the running state, and
events are delivered again — the stopped state is not terminal. -/
theorem C7_counterexample :
    ((stop (start initFacade).1).1).worker = none ∧
    ((start (stop (start initFacade).1).1).1).worker = some 1 ∧
    (start (stop (start initFacade).1).1).2 = [Act.spawnWorker] ∧
    facadeObserve ((start (stop (start initFacade).1).1).1)
        [{ type := EventName.keydown, detail := ev0 }] =
      [(EventName.keydown, ev0)] := by
  decide

/-- Claim C7, amended: `stop()` always leaves the facade without a worker, but
the state is not terminal — a subsequent `start()` on the same instance spawns
a fresh worker and resumes capture; no fresh instance is required. -/
theorem C7_stop_not_terminal (s : Facade) :
    ((stop s).1).worker = none ∧
    ((start (stop s).1).1).worker = some ((stop s).1).spawned ∧
    (start (stop s).1).2 = [Act.spawnWorker] := by
  rcases s with ⟨w, n⟩
  cases w <;> simp [start, stop]

/-- Claim C8: evaluation at the failing input.  When `SetWindowsHookExW`
refuses installation, the unnamed worker revision's `start` cleans up but then
falls through to the unconditional `GetMessageW` call — the thread reaches the
message-retrieval call despite the failed install — whereas the
`KeyboardHook.ts` constructor throws after cleanup and never reaches
`GetMessageW`. -/
theorem C8_install_failure_eval :
    workerStart false =
      [Act.setHook, Act.callbackClose, Act.libClose, Act.selfClose, Act.getMessage] ∧
    Act.getMessage ∈ workerStart false ∧
    constructorRun false =
      [Act.setHook, Act.postQuit, Act.unhook, Act.callbackClose, Act.libClose,
        Act.throwInstallError] ∧
    Act.getMessage ∉ constructorRun false := by
  decide

/-- Claim C9, counterexample: the facade's `stop()` on a running instance
performs only `worker.terminate()` — it never calls `UnhookWindowsHookEx` —
even though the engine's own uninstall routine (the inlined worker hook's
`stop`) does unhook; so `stop()`'s return does not establish that the native
hook was explicitly uninstalled. -/
theorem C9_counterexample :
    (stop (Facade.mk (some 0) 1)).2 = [Act.terminateWorker] ∧
    Act.unhook ∉ (stop (Facade.mk (some 0) 1)).2 ∧
    Act.unhook ∈ (innerStop (InnerHook.mk true true true)).2 := by
  decide

/-- Claim C9, amended: after facade `stop()` returns, the worker is gone, no
further worker messages are ever delivered to listeners, and a second `stop()`
is a no-op; the native hook, however, is not explicitly uninstalled on this
path — its removal relies on the terminated worker thread, not on an
`UnhookWindowsHookEx` call. -/
theorem C9_stop_silences (s : Facade) (msgs : List WorkerMsg) :
    facadeObserve (stop s).1 msgs = [] ∧
    stop (stop s).1 = ((stop s).1, []) ∧
    ((stop s).1).worker = none := by
  rcases s with ⟨w, n⟩
  cases w <;> simp [stop, facadeObserve]

/-- Claim C10: the `KeyboardHook_worker.ts` flags decoding extracts exactly
bits 0, 1, 4, 5 and 7 of the raw 32-bit flags value (masks `0x01`, `0x02`,
`0x10`, `0x20`, `0x80`) into `extended`, `lowerIlInjected`, `injected`,
`altDown` and `up`, and its callback dispatches every processed record with
the flags object decoded from the raw 32-bit field at byte offset 8. -/
theorem C10_flags_decoding (next : NextHook) (nCode : Int) (wParam : Nat)
    (record : Mem) (flags : Nat) :
    decodeFlags flags =
      { extended := flags.testBit 0, lowerIlInjected := flags.testBit 1,
        injected := flags.testBit 4, altDown := flags.testBit 5,
        up := flags.testBit 7 } ∧
    (callbackFlags next nCode wParam (some record)).1 =
      (if 0 ≤ nCode then
        match List.lookup wParam eventNameMap with
        | some eventName =>
          [HookAct.dispatchFlags eventName
            { vkCode := getUint32 record 0, scanCode := getUint32 record 4,
              flags := decodeFlags (getUint32 record 8), time := getUint32 record 12 }]
        | none => []
      else []) ++ [HookAct.callNext nCode wParam false] := by
  constructor
  · have h0 : (flags &&& 1 != 0) = flags.testBit 0 := by
      have h := and_mask_eq_testBit flags 0
      rwa [pow_zero] at h
    have h1 : (flags &&& 2 != 0) = flags.testBit 1 := by
      have h := and_mask_eq_testBit flags 1
      rwa [pow_one] at h
    have h4 : (flags &&& 16 != 0) = flags.testBit 4 := by
      have h := and_mask_eq_testBit flags 4
      rwa [show (2 : Nat) ^ 4 = 16 by norm_num] at h
    have h5 : (flags &&& 32 != 0) = flags.testBit 5 := by
      have h := and_mask_eq_testBit flags 5
      rwa [show (2 : Nat) ^ 5 = 32 by norm_num] at h
    have h7 : (flags &&& 128 != 0) = flags.testBit 7 := by
      have h := and_mask_eq_testBit flags 7
      rwa [show (2 : Nat) ^ 7 = 128 by norm_num] at h
    unfold decodeFlags
    rw [h0, h1, h4, h5, h7]
  · rfl
